import Mathlib

/-
Shallow embedding of the Task aggregate, TaskService controller operations,
TaskStore query logic and the notification sweep of the To-Do-List web
application (backend: models/Task.js, controllers/taskController.js,
utils/notificationService.js).

Modelling conventions:
* MongoDB ObjectIds are modelled as Nat; timestamps (Date) as Nat milliseconds.
* A saved document runs the mongoose pre("save") middleware (`preSave`) and
  schema validation; `save` combines both, returning `Except Err Task`.
* The schema's whitespace-trim setter on string fields is not modelled
  (titles are taken as given); no verified claim depends on whitespace.
* Fallible controller paths return `Except Err _` with the error taxonomy
  `validation` (400) / `notFound` (404), mirroring the JSON error responses.
-/

namespace Todo

/-- Priority enum of the task schema: values ["Low", "Medium", "High"]. -/
inductive Priority
  | low
  | medium
  | high
deriving DecidableEq, Repr

/-- Mongo sorts the priority field as a string; this is the stored string
value of each enum member (models/Task.js `priority.enum.values`). -/
def Priority.name : Priority → String
  | .low => "Low"
  | .medium => "Medium"
  | .high => "High"

/-- Subtask subdocument: { _id, title, is_completed } (subtaskSchema). -/
structure Subtask where
  id : Nat
  title : String
  is_completed : Bool
deriving DecidableEq, Repr

/-- Task document (taskSchema): owner, content fields, subtask array, the
sweep idempotency flag and the createdAt timestamp used for default sort. -/
structure Task where
  id : Nat
  user_id : Nat
  title : String
  description : Option String
  is_completed : Bool
  priority : Priority
  due_date : Option Nat
  subtasks : List Subtask
  notification_sent : Bool
  createdAt : Nat
deriving DecidableEq, Repr

/-- Error taxonomy surfaced by the controllers: schema/validator failures
(HTTP 400) and missing task/subtask (HTTP 404 "Task/Subtask not found"). -/
inductive Err
  | validation
  | notFound
deriving DecidableEq, Repr

/-- Title validator of both schemas: required (non-empty) and at most 200
characters. -/
def validTitle (s : String) : Bool :=
  s != "" && decide (s.length ≤ 200)

/-- Description validator: optional, at most 1000 characters. -/
def validDescription : Option String → Bool
  | none => true
  | some s => decide (s.length ≤ 1000)

/-- Document-level validation run by mongoose on every save of an existing
task (the due-date validator only applies to new documents, see
`createTaskPure`). -/
def validTask (t : Task) : Bool :=
  validTitle t.title && validDescription t.description
    && t.subtasks.all (fun s => validTitle s.title)

/-- Pre-save middleware (taskSchema.pre "save"): if the subtask array is
non-empty and every subtask is completed, force is_completed to true;
otherwise leave is_completed untouched (no auto-uncompletion). -/
def preSave (t : Task) : Task :=
  if t.subtasks.length > 0 then
    if (t.subtasks.filter (fun s => s.is_completed)).length = t.subtasks.length then
      { t with is_completed := true }
    else t
  else t

/-- Semantics of `document.save()`: mongoose validation followed by the
pre-save completion middleware; a validator failure rejects the save. -/
def save (t : Task) : Except Err Task :=
  if validTask t then .ok (preSave t) else .error .validation

/-- Due-date validator of the schema: for a new document, a provided
due_date must not lie strictly in the past. -/
def dueDateOkAtCreate (now : Nat) : Option Nat → Bool
  | none => true
  | some d => !(decide (d < now))

/-- createTask (taskController.createTask + Task.create): builds a fresh
document with is_completed = false and notification_sent = false, runs the
new-document due-date validator, then saves. -/
def createTaskPure (now userId id : Nat) (title : String) (description : Option String)
    (priority : Priority) (due_date : Option Nat) (subtasks : List Subtask)
    (createdAt : Nat) : Except Err Task :=
  let t : Task :=
    { id := id, user_id := userId, title := title, description := description,
      is_completed := false, priority := priority, due_date := due_date,
      subtasks := subtasks, notification_sent := false, createdAt := createdAt }
  if dueDateOkAtCreate now due_date then save t else .error .validation

/-- Partial update payload of PUT /api/tasks/:id; `none` means the field was
absent from the request body (JS `undefined`), mirroring the
`if (x !== undefined)` guards of updateTask. due_date and description can
also be explicitly cleared, hence the nested Option. -/
structure TaskUpdate where
  title : Option String := none
  description : Option (Option String) := none
  priority : Option Priority := none
  due_date : Option (Option Nat) := none
  is_completed : Option Bool := none

/-- Field-by-field application of the update payload (updateTask body). -/
def applyUpdate (t : Task) (u : TaskUpdate) : Task :=
  let t1 := match u.title with | some v => { t with title := v } | none => t
  let t2 := match u.description with | some v => { t1 with description := v } | none => t1
  let t3 := match u.priority with | some v => { t2 with priority := v } | none => t2
  let t4 := match u.due_date with | some v => { t3 with due_date := v } | none => t3
  match u.is_completed with | some v => { t4 with is_completed := v } | none => t4

/-- updateTask mutation on a loaded task: set the provided fields, save. -/
def updateTaskPure (t : Task) (u : TaskUpdate) : Except Err Task :=
  save (applyUpdate t u)

/-- addSubtask mutation (Task.addSubtask via controller addSubtask): push a
new subtask with a freshly generated id onto the array, then save. -/
def addSubtaskPure (t : Task) (title : String) (is_completed : Bool)
    (freshId : Nat) : Except Err Task :=
  save { t with subtasks :=
    t.subtasks ++ [{ id := freshId, title := title, is_completed := is_completed }] }

/-- Partial update payload for a subtask (PUT .../subtasks/:subtaskId). -/
structure SubtaskUpdate where
  title : Option String := none
  is_completed : Option Bool := none

/-- Application of a subtask patch to one subtask document. -/
def applySubtaskUpdate (s : Subtask) (u : SubtaskUpdate) : Subtask :=
  let s1 := match u.title with | some v => { s with title := v } | none => s
  match u.is_completed with | some v => { s1 with is_completed := v } | none => s1

/-- mongoose `subtasks.id(subtaskId)` membership test. -/
def hasSubtask (t : Task) (subtaskId : Nat) : Bool :=
  t.subtasks.any (fun s => s.id == subtaskId)

/-- Patch the first subtask carrying the given id (mongoose `.id()` returns
the first matching subdocument). -/
def patchFirst : List Subtask → Nat → SubtaskUpdate → List Subtask
  | [], _, _ => []
  | s :: rest, subtaskId, u =>
    if s.id == subtaskId then applySubtaskUpdate s u :: rest
    else s :: patchFirst rest subtaskId u

/-- updateSubtask mutation (Task.updateSubtask): 404 when the subtask id is
absent, otherwise apply the patch to that subtask and save. -/
def updateSubtaskPure (t : Task) (subtaskId : Nat) (u : SubtaskUpdate) :
    Except Err Task :=
  if hasSubtask t subtaskId then
    save { t with subtasks := patchFirst t.subtasks subtaskId u }
  else .error .notFound

/-- removeSubtask mutation (controller deleteSubtask + Task.removeSubtask):
404 when absent, otherwise pull the subtask out of the array and save. -/
def removeSubtaskPure (t : Task) (subtaskId : Nat) : Except Err Task :=
  if hasSubtask t subtaskId then
    save { t with subtasks := t.subtasks.filter (fun s => !(s.id == subtaskId)) }
  else .error .notFound

/-- toggleTaskCompletion mutation: flip is_completed and save. -/
def toggleTaskCompletionPure (t : Task) : Except Err Task :=
  save { t with is_completed := !t.is_completed }

/-- Flip the completion flag of the first subtask carrying the given id. -/
def flipFirst : List Subtask → Nat → List Subtask
  | [], _ => []
  | s :: rest, subtaskId =>
    if s.id == subtaskId then { s with is_completed := !s.is_completed } :: rest
    else s :: flipFirst rest subtaskId

/-- toggleSubtaskCompletion mutation: 404 when the subtask id is absent,
otherwise flip that subtask's flag and save. -/
def toggleSubtaskCompletionPure (t : Task) (subtaskId : Nat) : Except Err Task :=
  if hasSubtask t subtaskId then
    save { t with subtasks := flipFirst t.subtasks subtaskId }
  else .error .notFound

/-- Ownership-scoped load used by every task-scoped controller operation:
Task.findOne({ _id: taskId, user_id: userId }). -/
def findOwned (db : List Task) (taskId userId : Nat) : Option Task :=
  db.find? (fun t => t.id == taskId && t.user_id == userId)

/-- Persisting a mutated document back into the store (the document with
the same _id is replaced). -/
def writeBack (db : List Task) (t : Task) : List Task :=
  db.map (fun u => if u.id == t.id then t else u)

/-- GET /api/tasks/:id — load scoped by (taskId, userId); 404 otherwise. -/
def getTaskSvc (db : List Task) (taskId userId : Nat) : Except Err Task :=
  match findOwned db taskId userId with
  | some t => .ok t
  | none => .error .notFound

/-- PUT /api/tasks/:id — scoped load, field update, save, persist. -/
def updateTaskSvc (db : List Task) (taskId userId : Nat) (u : TaskUpdate) :
    Except Err (List Task) :=
  match findOwned db taskId userId with
  | some t => (updateTaskPure t u).map (writeBack db)
  | none => .error .notFound

/-- DELETE /api/tasks/:id — scoped load, then findByIdAndDelete(taskId). -/
def deleteTaskSvc (db : List Task) (taskId userId : Nat) :
    Except Err (List Task) :=
  match findOwned db taskId userId with
  | some _ => .ok (db.filter (fun t => !(t.id == taskId)))
  | none => .error .notFound

/-- POST /api/tasks/:id/subtasks — scoped load, push subtask, save. -/
def addSubtaskSvc (db : List Task) (taskId userId : Nat) (title : String)
    (is_completed : Bool) (freshId : Nat) : Except Err (List Task) :=
  match findOwned db taskId userId with
  | some t => (addSubtaskPure t title is_completed freshId).map (writeBack db)
  | none => .error .notFound

/-- PUT /api/tasks/:taskId/subtasks/:subtaskId — scoped load then patch. -/
def updateSubtaskSvc (db : List Task) (taskId userId subtaskId : Nat)
    (u : SubtaskUpdate) : Except Err (List Task) :=
  match findOwned db taskId userId with
  | some t => (updateSubtaskPure t subtaskId u).map (writeBack db)
  | none => .error .notFound

/-- DELETE /api/tasks/:taskId/subtasks/:subtaskId — scoped load then pull. -/
def deleteSubtaskSvc (db : List Task) (taskId userId subtaskId : Nat) :
    Except Err (List Task) :=
  match findOwned db taskId userId with
  | some t => (removeSubtaskPure t subtaskId).map (writeBack db)
  | none => .error .notFound

/-- PATCH /api/tasks/:id/toggle-completion — scoped load then flip+save. -/
def toggleTaskCompletionSvc (db : List Task) (taskId userId : Nat) :
    Except Err (List Task) :=
  match findOwned db taskId userId with
  | some t => (toggleTaskCompletionPure t).map (writeBack db)
  | none => .error .notFound

/-- PATCH /api/tasks/:taskId/subtasks/:subtaskId/toggle — scoped load then
flip the subtask and save. -/
def toggleSubtaskCompletionSvc (db : List Task) (taskId userId subtaskId : Nat) :
    Except Err (List Task) :=
  match findOwned db taskId userId with
  | some t => (toggleSubtaskCompletionPure t subtaskId).map (writeBack db)
  | none => .error .notFound

/-- Saved document produced by a successful toggleSubtaskCompletion (the
payload of its .ok result): flip the subtask, then run the pre-save
middleware. -/
def toggleSubtaskGo (t : Task) (subtaskId : Nat) : Task :=
  preSave { t with subtasks := flipFirst t.subtasks subtaskId }

/-- Sequence of subtask toggles through the service, left to right, stopping
at the first error. -/
def toggleSubtaskSeq (t : Task) (ids : List Nat) : Except Err Task :=
  ids.foldlM toggleSubtaskCompletionPure t

/-- isOverdue virtual (taskSchema.virtual "isOverdue"): truthiness of
`due_date && due_date < now && !is_completed`. -/
def isOverdue (t : Task) (now : Nat) : Bool :=
  match t.due_date with
  | some d => decide (d < now) && !t.is_completed
  | none => false

/-- Environment of one sweep run: the owner-email join done by
populate("user_id", "email") (none = unresolvable owner), the Mailer
verdict per task (sendEmailNotification catches its own errors and always
returns a success flag, never throwing), and whether the flag-persisting
task.save() resolves (false = the save rejects; that rejection is thrown
out of the per-task loop into the run's single try/catch). -/
structure SweepEnv where
  emailOf : Nat → Option String
  mailOk : Nat → Bool
  saveOk : Nat → Bool

/-- Selection query of checkAndSendNotifications: due within the next 24
hours, not completed, not yet notified. -/
def dueSoon (now : Nat) (t : Task) : Bool :=
  (match t.due_date with
   | some d => decide (now ≤ d) && decide (d ≤ now + 24 * 60 * 60 * 1000)
   | none => false) && !t.is_completed && !t.notification_sent

/-- State threaded through one sweep run: the store, the ids of tasks whose
reminder email was dispatched (in order), and whether the run was aborted by
a thrown error (which the outer catch then swallows). -/
structure SweepState where
  db : List Task
  emailed : List Nat
  aborted : Bool
deriving Repr

/-- One iteration of the sweep loop: tasks without a resolvable owner email
are skipped; on a successful dispatch the task gets notification_sent = true
and is saved (running the pre-save hook); a rejected save throws and aborts
the remaining iterations; a failed dispatch only logs and continues. -/
def sweepStep (env : SweepEnv) (st : SweepState) (t : Task) : SweepState :=
  if st.aborted then st
  else if (env.emailOf t.user_id).isSome then
    if env.mailOk t.id then
      if env.saveOk t.id then
        { st with
          db := writeBack st.db (preSave { t with notification_sent := true }),
          emailed := st.emailed ++ [t.id] }
      else { st with emailed := st.emailed ++ [t.id], aborted := true }
    else st
  else st

/-- One run of checkAndSendNotifications: select the due-soon unnotified
tasks, then run the dispatch-and-mark loop over them. -/
def sweep (db : List Task) (env : SweepEnv) (now : Nat) : SweepState :=
  (db.filter (dueSoon now)).foldl (sweepStep env)
    { db := db, emailed := [], aborted := false }

/-- Task.findOverdueTasks: due strictly in the past, not completed, not yet
notified (joined with the owner email by populate). -/
def findOverdueTasks (db : List Task) (now : Nat) : List Task :=
  db.filter (fun t =>
    (match t.due_date with
     | some d => decide (d < now)
     | none => false) && !t.is_completed && !t.notification_sent)

/-- Sort field accepted by the list query (validated by validateTaskQuery to
one of due_date, priority, created_at). -/
inductive SortBy
  | due_date
  | priority
  | created_at
deriving DecidableEq, Repr

/-- Sort direction; the source treats exactly "desc" as descending and any
other value as ascending. -/
inductive SortOrder
  | asc
  | desc
deriving DecidableEq, Repr

/-- Recognised query parameters of GET /api/tasks with the controller's
defaults (page 1, limit 10, sort_order desc); `none` marks an absent
parameter. -/
structure QueryFilters where
  page : Nat := 1
  limit : Nat := 10
  priority : Option Priority := none
  is_completed : Option Bool := none
  sort_by : Option SortBy := none
  sort_order : SortOrder := .desc
  due_date_from : Option Nat := none
  due_date_to : Option Nat := none
  search : Option String := none

/-- Lower-cased character sequence of a string (the "i" regex option). -/
def lowerChars (s : String) : List Char := s.data.map Char.toLower

/-- Substring test on character lists, modelling the plain-text $regex
match of the search filter. -/
def hasSubstring (pat : List Char) : List Char → Bool
  | [] => pat.isEmpty
  | c :: rest => pat.isPrefixOf (c :: rest) || hasSubstring pat rest

/-- Search filter: case-insensitive substring match on title OR description
(a missing description never matches). -/
def matchesSearch (q : String) (t : Task) : Bool :=
  hasSubstring (lowerChars q) (lowerChars t.title) ||
    (match t.description with
     | some d => hasSubstring (lowerChars q) (lowerChars d)
     | none => false)

/-- Due-date range filter: built only when at least one bound is given; a
task without a due_date then never matches the range query. -/
def matchesDueRange (f : QueryFilters) (t : Task) : Bool :=
  match f.due_date_from, f.due_date_to with
  | none, none => true
  | df, dt =>
    match t.due_date with
    | none => false
    | some d =>
      (match df with | some a => decide (a ≤ d) | none => true) &&
      (match dt with | some b => decide (d ≤ b) | none => true)

/-- Conjunction of the optional filters built by findByUserWithFilters. -/
def matchesFilters (f : QueryFilters) (t : Task) : Bool :=
  (match f.is_completed with | some b => t.is_completed == b | none => true) &&
  (match f.priority with | some p => decide (t.priority = p) | none => true) &&
  matchesDueRange f t &&
  (match f.search with | some q => matchesSearch q t | none => true)

/-- Ascending comparison of optional due dates; a missing date sorts first,
as null/missing does in MongoDB ascending order. -/
def ascOptNat : Option Nat → Option Nat → Bool
  | none, _ => true
  | some _, none => false
  | some a, some b => decide (a ≤ b)

/-- Sorting stage of findByUserWithFilters: due_date and createdAt sort on
the timestamp, priority sorts on the stored enum string (so alphabetical
High < Low < Medium, not severity), and an absent sort_by defaults to
createdAt descending (newest first). The merge sort is stable, breaking
ties by insertion order. -/
def sortTasks (f : QueryFilters) (l : List Task) : List Task :=
  match f.sort_by with
  | some .due_date =>
    match f.sort_order with
    | .desc => l.mergeSort (fun a b => ascOptNat b.due_date a.due_date)
    | .asc => l.mergeSort (fun a b => ascOptNat a.due_date b.due_date)
  | some .priority =>
    match f.sort_order with
    | .desc => l.mergeSort (fun a b => decide (b.priority.name ≤ a.priority.name))
    | .asc => l.mergeSort (fun a b => decide (a.priority.name ≤ b.priority.name))
  | some .created_at =>
    match f.sort_order with
    | .desc => l.mergeSort (fun a b => decide (b.createdAt ≤ a.createdAt))
    | .asc => l.mergeSort (fun a b => decide (a.createdAt ≤ b.createdAt))
  | none => l.mergeSort (fun a b => decide (b.createdAt ≤ a.createdAt))

/-- Task.findByUserWithFilters: owner scope, optional filters, sort, then
skip/limit pagination (applied only when page and limit are both truthy,
i.e. non-zero). -/
def findByUserWithFilters (db : List Task) (userId : Nat) (f : QueryFilters) :
    List Task :=
  let matching := (db.filter (fun t => t.user_id == userId)).filter (matchesFilters f)
  let sorted := sortTasks f matching
  if f.page != 0 && f.limit != 0 then
    (sorted.drop ((f.page - 1) * f.limit)).take f.limit
  else sorted

/-- Pagination metadata of the getTasks response. -/
structure Pagination where
  currentPage : Nat
  totalPages : Nat
  totalTasks : Nat
  hasNextPage : Bool
  hasPrevPage : Bool
deriving DecidableEq, Repr

/-- Math.ceil(a / b) on naturals (b ≥ 1 is guaranteed by query validation). -/
def ceilDiv (a b : Nat) : Nat := (a + b - 1) / b

/-- getTasks controller: the page slice from findByUserWithFilters, plus
pagination metadata computed from countDocuments({ user_id }) — a count
scoped to the owner only, ignoring the active filters. -/
def getTasksCtrl (db : List Task) (userId : Nat) (f : QueryFilters) :
    List Task × Pagination :=
  let tasks := findByUserWithFilters db userId f
  let totalTasks := (db.filter (fun t => t.user_id == userId)).length
  let totalPages := ceilDiv totalTasks f.limit
  (tasks,
    { currentPage := f.page, totalPages := totalPages, totalTasks := totalTasks,
      hasNextPage := decide (f.page < totalPages),
      hasPrevPage := decide (f.page > 1) })

/-- Store of 15 tasks owned by user 7, used to instantiate C5. -/
def paginationDb : List Task :=
  (List.range 15).map (fun n =>
    { id := n, user_id := 7, title := "t", description := none,
      is_completed := false, priority := .low, due_date := none,
      subtasks := [], notification_sent := false, createdAt := n })

/-- Concrete task with one incomplete subtask, used to instantiate C1/C8. -/
def oneSubtaskTask : Task :=
  { id := 1, user_id := 1, title := "a", description := none,
    is_completed := false, priority := .low, due_date := none,
    subtasks := [{ id := 5, title := "s", is_completed := false }],
    notification_sent := false, createdAt := 0 }

/-- Result of toggling that subtask: the hook completes the parent task. -/
def oneSubtaskToggled : Task :=
  { oneSubtaskTask with
    subtasks := [{ id := 5, title := "s", is_completed := true }],
    is_completed := true }

/-- Intermediate state of the C8 round trip: the fresh subtask appended. -/
def oneSubtaskExtended : Task :=
  { oneSubtaskTask with
    subtasks := [{ id := 5, title := "s", is_completed := false },
      { id := 9, title := "n", is_completed := false }] }

/-- Concrete task with two incomplete subtasks, used to instantiate C7. -/
def twoSubtaskTask : Task :=
  { id := 1, user_id := 1, title := "a", description := none,
    is_completed := false, priority := .low, due_date := none,
    subtasks := [{ id := 5, title := "s", is_completed := false },
      { id := 6, title := "u", is_completed := false }],
    notification_sent := false, createdAt := 0 }

/-- State after toggling subtask 5 only: the parent stays incomplete. -/
def twoSubtaskMid : Task :=
  { twoSubtaskTask with
    subtasks := [{ id := 5, title := "s", is_completed := true },
      { id := 6, title := "u", is_completed := false }] }

/-- State after toggling both subtasks: the hook completes the parent. -/
def twoSubtaskDone : Task :=
  { twoSubtaskTask with
    subtasks := [{ id := 5, title := "s", is_completed := true },
      { id := 6, title := "u", is_completed := true }],
    is_completed := true }

/-- Concrete task with one completed subtask, used to instantiate C10. -/
def fullyCompletedTask : Task :=
  { id := 1, user_id := 1, title := "a", description := none,
    is_completed := true, priority := .low, due_date := none,
    subtasks := [{ id := 5, title := "s", is_completed := true }],
    notification_sent := false, createdAt := 0 }

/-- Concrete task that has already been notified, used to refute C2. -/
def notifiedTask : Task :=
  { id := 1, user_id := 1, title := "t", description := none,
    is_completed := false, priority := .low, due_date := some 1000,
    subtasks := [], notification_sent := true, createdAt := 0 }

/-- Update payload rescheduling the task: it changes only due_date. -/
def rescheduleUpdate : TaskUpdate :=
  { due_date := some (some 2000) }

/-- The task as persisted after the rescheduling update. -/
def rescheduledTask : Task :=
  { notifiedTask with due_date := some 2000 }

/-- Concrete task with no due date, used to instantiate C9. -/
def undatedTask : Task :=
  { id := 1, user_id := 1, title := "t", description := none,
    is_completed := false, priority := .low, due_date := none,
    subtasks := [], notification_sent := false, createdAt := 0 }

/-- Concrete unnotified task due at time 100, used for the sweep claims. -/
def dueTask1 : Task :=
  { id := 1, user_id := 1, title := "t", description := none,
    is_completed := false, priority := .low, due_date := some 100,
    subtasks := [], notification_sent := false, createdAt := 0 }

/-- A second unnotified due task, id 2. -/
def dueTask2 : Task :=
  { dueTask1 with id := 2 }

/-- Sweep environment where everything succeeds. -/
def okEnv : SweepEnv :=
  { emailOf := fun _ => some "e", mailOk := fun _ => true,
    saveOk := fun _ => true }

/-- Sweep environment where the flag-write (save) for task 1 rejects,
throwing out of the loop; dispatches all succeed. -/
def failSaveEnv : SweepEnv :=
  { emailOf := fun _ => some "e", mailOk := fun _ => true,
    saveOk := fun i => !(i == 1) }

/-- Sweep environment where the dispatch for task 1 reports failure;
all saves succeed. -/
def mailFailEnv : SweepEnv :=
  { emailOf := fun _ => some "e", mailOk := fun i => !(i == 1),
    saveOk := fun _ => true }

/-- Concrete task owned by user 2, used to instantiate C6 with a lookup by
the non-owner user 1. -/
def otherOwnerDb : List Task :=
  [{ id := 1, user_id := 2, title := "t", description := none,
     is_completed := false, priority := .low, due_date := none,
     subtasks := [], notification_sent := false, createdAt := 0 }]

/-- C9: isOverdue is true exactly when a due_date exists, lies strictly in
the past, and the task is not completed; in particular a task without a
due_date is never overdue, at any evaluation time. -/
theorem c9_isOverdue_characterisation (t : Task) (now : Nat) :
    (isOverdue t now = true ↔
      ∃ d, t.due_date = some d ∧ d < now ∧ t.is_completed = false) ∧
    (t.due_date = none → isOverdue t now = false) := by
  constructor
  · cases hd : t.due_date <;> simp [isOverdue, hd]
  · intro h
    simp [isOverdue, h]

/-- The pre-save middleware either leaves the task untouched or only sets
is_completed to true. -/
theorem preSave_cases (t : Task) :
    preSave t = t ∨ preSave t = { t with is_completed := true } := by
  unfold preSave
  split
  · split
    · right; rfl
    · left; rfl
  · left; rfl

/-- The pre-save middleware never changes the subtask array. -/
theorem preSave_subtasks (t : Task) : (preSave t).subtasks = t.subtasks := by
  rcases preSave_cases t with h | h <;> rw [h]

/-- The pre-save middleware never changes the notification flag. -/
theorem preSave_notification (t : Task) :
    (preSave t).notification_sent = t.notification_sent := by
  rcases preSave_cases t with h | h <;> rw [h]

/-- The pre-save middleware never changes the document id. -/
theorem preSave_id (t : Task) : (preSave t).id = t.id := by
  rcases preSave_cases t with h | h <;> rw [h]

/-- When the subtask array is non-empty and fully completed, the pre-save
middleware forces is_completed to true. -/
theorem preSave_complete (t : Task) (h1 : t.subtasks ≠ [])
    (h2 : ∀ s ∈ t.subtasks, s.is_completed = true) :
    (preSave t).is_completed = true := by
  have hf : t.subtasks.filter (fun s => s.is_completed) = t.subtasks :=
    List.filter_eq_self.mpr h2
  unfold preSave
  rw [hf]
  simp [List.length_pos.mpr h1]

/-- The pre-save middleware never un-completes a completed task. -/
theorem preSave_keeps_completed (t : Task) (h : t.is_completed = true) :
    (preSave t).is_completed = true := by
  rcases preSave_cases t with hc | hc <;> rw [hc]
  exact h

/-- A successful save returns exactly the document produced by the pre-save
middleware. -/
theorem save_ok_eq (t r : Task) (h : save t = .ok r) : r = preSave t := by
  unfold save at h
  split at h
  · injection h with h2
    exact h2.symm
  · cases h

/-- Any successfully saved document satisfies the derived-completion rule:
non-empty, fully completed subtasks imply is_completed = true. -/
theorem save_ok_completion (t r : Task) (h : save t = .ok r)
    (h1 : r.subtasks ≠ []) (h2 : ∀ s ∈ r.subtasks, s.is_completed = true) :
    r.is_completed = true := by
  obtain rfl : r = preSave t := save_ok_eq t r h
  rw [preSave_subtasks] at h1 h2
  exact preSave_complete t h1 h2

/-- C1: after any persisting mutation of the service (create, update,
add/update/remove subtask, toggle task completion, toggle subtask
completion), a task whose subtask list is non-empty and fully completed has
is_completed = true: every mutation persists through `save`, whose pre-save
middleware enforces the rule. -/
theorem c1_completion_invariant_after_any_mutation :
    (∀ now uid id title desc prio due subs created r,
      createTaskPure now uid id title desc prio due subs created = .ok r →
      r.subtasks ≠ [] → (∀ s ∈ r.subtasks, s.is_completed = true) →
      r.is_completed = true) ∧
    (∀ t u r, updateTaskPure t u = .ok r →
      r.subtasks ≠ [] → (∀ s ∈ r.subtasks, s.is_completed = true) →
      r.is_completed = true) ∧
    (∀ t title ic fresh r, addSubtaskPure t title ic fresh = .ok r →
      r.subtasks ≠ [] → (∀ s ∈ r.subtasks, s.is_completed = true) →
      r.is_completed = true) ∧
    (∀ t sid u r, updateSubtaskPure t sid u = .ok r →
      r.subtasks ≠ [] → (∀ s ∈ r.subtasks, s.is_completed = true) →
      r.is_completed = true) ∧
    (∀ t sid r, removeSubtaskPure t sid = .ok r →
      r.subtasks ≠ [] → (∀ s ∈ r.subtasks, s.is_completed = true) →
      r.is_completed = true) ∧
    (∀ t r, toggleTaskCompletionPure t = .ok r →
      r.subtasks ≠ [] → (∀ s ∈ r.subtasks, s.is_completed = true) →
      r.is_completed = true) ∧
    (∀ t sid r, toggleSubtaskCompletionPure t sid = .ok r →
      r.subtasks ≠ [] → (∀ s ∈ r.subtasks, s.is_completed = true) →
      r.is_completed = true) := by
  refine ⟨?_, ?_, ?_, ?_, ?_, ?_, ?_⟩
  · intro now uid id title desc prio due subs created r h h1 h2
    unfold createTaskPure at h
    split at h
    · exact save_ok_completion _ _ h h1 h2
    · cases h
  · intro t u r h h1 h2
    exact save_ok_completion _ _ h h1 h2
  · intro t title ic fresh r h h1 h2
    exact save_ok_completion _ _ h h1 h2
  · intro t sid u r h h1 h2
    unfold updateSubtaskPure at h
    split at h
    · exact save_ok_completion _ _ h h1 h2
    · cases h
  · intro t sid r h h1 h2
    unfold removeSubtaskPure at h
    split at h
    · exact save_ok_completion _ _ h h1 h2
    · cases h
  · intro t r h h1 h2
    exact save_ok_completion _ _ h h1 h2
  · intro t sid r h h1 h2
    unfold toggleSubtaskCompletionPure at h
    split at h
    · exact save_ok_completion _ _ h h1 h2
    · cases h

/-- Witness for C1: toggling the only subtask of `oneSubtaskTask` yields a
saved task whose subtasks are non-empty and all completed, and whose
is_completed flag is true. -/
theorem c1_completion_invariant_witness :
    toggleSubtaskCompletionPure oneSubtaskTask 5 = .ok oneSubtaskToggled ∧
    oneSubtaskToggled.subtasks.all (fun s => s.is_completed) = true ∧
    oneSubtaskToggled.is_completed = true :=
  ⟨rfl, by decide,
    c1_completion_invariant_after_any_mutation.2.2.2.2.2.2 oneSubtaskTask 5
      oneSubtaskToggled rfl (by decide) (by decide)⟩

/-- Field application of an update payload changes neither the subtask array
nor the notification flag (updateTask only sets title, description,
priority, due_date and is_completed). -/
theorem applyUpdate_subtasks_notification (t : Task) (u : TaskUpdate) :
    (applyUpdate t u).subtasks = t.subtasks ∧
    (applyUpdate t u).notification_sent = t.notification_sent := by
  rcases u with ⟨ut, ud, up, udd, uc⟩
  unfold applyUpdate
  cases ut <;> cases ud <;> cases up <;> cases udd <;> cases uc <;>
    exact ⟨rfl, rfl⟩

/-- C10: when a task's subtasks are non-empty and all completed, neither
toggleTaskCompletion nor an update payload (even one explicitly setting
is_completed = false) can persist the task as incomplete: the pre-save
recomputation forces is_completed back to true, because neither mutation
touches the subtask array. -/
theorem c10_forced_completion_cannot_be_undone (t : Task)
    (hv : validTask t = true) (h1 : t.subtasks ≠ [])
    (h2 : ∀ s ∈ t.subtasks, s.is_completed = true) :
    (∃ r, toggleTaskCompletionPure t = .ok r ∧ r.is_completed = true) ∧
    (∀ u : TaskUpdate, validTask (applyUpdate t u) = true →
      ∃ r, updateTaskPure t u = .ok r ∧ r.is_completed = true) := by
  constructor
  · refine ⟨preSave { t with is_completed := !t.is_completed }, ?_, ?_⟩
    · unfold toggleTaskCompletionPure save
      rw [if_pos]
      exact hv
    · exact preSave_complete { t with is_completed := !t.is_completed } h1 h2
  · intro u hvu
    refine ⟨preSave (applyUpdate t u), ?_, ?_⟩
    · unfold updateTaskPure save
      rw [if_pos]
      exact hvu
    · obtain ⟨hs, _⟩ := applyUpdate_subtasks_notification t u
      refine preSave_complete (applyUpdate t u) ?_ ?_
      · rw [hs]; exact h1
      · rw [hs]; exact h2

/-- Witness for C10: toggling the fully-completed concrete task still
persists it as completed. -/
theorem c10_forced_completion_witness :
    validTask fullyCompletedTask = true ∧
    (∃ r, toggleTaskCompletionPure fullyCompletedTask = .ok r ∧
      r.is_completed = true) :=
  ⟨by decide,
    (c10_forced_completion_cannot_be_undone fullyCompletedTask (by decide)
      (by decide) (by decide)).1⟩

/-- Counterexample to C2: updateTask applied to an already-notified task
with a changed due_date (1000 → 2000) persists the task with
notification_sent still true; the service never resets the flag, contrary
to the claim that it is set back to false as part of the update. -/
theorem c2_notification_reset_counterexample :
    notifiedTask.notification_sent = true ∧
    notifiedTask.due_date = some 1000 ∧
    rescheduleUpdate.due_date = some (some 2000) ∧
    updateTaskPure notifiedTask rescheduleUpdate = .ok rescheduledTask ∧
    rescheduledTask.due_date = some 2000 ∧
    rescheduledTask.notification_sent = true :=
  ⟨rfl, rfl, rfl, rfl, rfl, rfl⟩

/-- C2 amended: updateTask never modifies notification_sent at all — the
flag after a successful update (including one that changes due_date) always
equals the flag before it, so a rescheduled, already-notified task stays
ineligible for re-notification. -/
theorem c2_update_preserves_notification_flag (t : Task) (u : TaskUpdate)
    (r : Task) (h : updateTaskPure t u = .ok r) :
    r.notification_sent = t.notification_sent := by
  obtain rfl : r = preSave (applyUpdate t u) := save_ok_eq _ _ h
  rw [preSave_notification]
  exact (applyUpdate_subtasks_notification t u).2

/-- Witness for the amended C2 at the concrete rescheduling input. -/
theorem c2_update_preserves_notification_flag_witness :
    updateTaskPure notifiedTask rescheduleUpdate = .ok rescheduledTask ∧
    rescheduledTask.notification_sent = notifiedTask.notification_sent :=
  ⟨rfl, c2_update_preserves_notification_flag notifiedTask rescheduleUpdate
    rescheduledTask rfl⟩

/-- Witness for C9 at a concrete input: a task with no due_date is not
overdue at time 5. -/
theorem c9_isOverdue_witness :
    undatedTask.due_date = none ∧ isOverdue undatedTask 5 = false :=
  ⟨rfl, (c9_isOverdue_characterisation undatedTask 5).2 rfl⟩

/-- The pre-save middleware never changes the title. -/
theorem preSave_title (t : Task) : (preSave t).title = t.title := by
  rcases preSave_cases t with h | h <;> rw [h]

/-- The pre-save middleware never changes the description. -/
theorem preSave_description (t : Task) :
    (preSave t).description = t.description := by
  rcases preSave_cases t with h | h <;> rw [h]

/-- C8: adding a subtask (with a valid title and the store's fresh id) and
then removing exactly that subtask restores the subtask sequence to its
prior state, preserving the order of the remaining subtasks. -/
theorem c8_add_remove_subtask_roundtrip (t : Task) (title : String)
    (freshId : Nat) (hv : validTask t = true) (ht : validTitle title = true)
    (hfresh : freshId ∉ t.subtasks.map Subtask.id) :
    ∃ t1, addSubtaskPure t title false freshId = .ok t1 ∧
      ∃ t2, removeSubtaskPure t1 freshId = .ok t2 ∧
        t2.subtasks = t.subtasks := by
  have hvext : validTask { t with subtasks := t.subtasks ++
      [({ id := freshId, title := title, is_completed := false } : Subtask)] }
      = true := by
    show (validTitle t.title && validDescription t.description &&
      (t.subtasks ++
        [({ id := freshId, title := title, is_completed := false } : Subtask)]).all
        (fun s => validTitle s.title)) = true
    unfold validTask at hv
    simp only [Bool.and_eq_true] at hv
    simp [List.all_append, hv.1.1, hv.1.2, hv.2, ht]
  have h1 : addSubtaskPure t title false freshId = .ok (preSave { t with
      subtasks := t.subtasks ++
        [({ id := freshId, title := title, is_completed := false } : Subtask)] }) := by
    unfold addSubtaskPure save
    rw [if_pos hvext]
  refine ⟨_, h1, ?_⟩
  have hsubs : (preSave { t with subtasks := t.subtasks ++
      [({ id := freshId, title := title, is_completed := false } : Subtask)] }).subtasks =
      t.subtasks ++
        [({ id := freshId, title := title, is_completed := false } : Subtask)] :=
    preSave_subtasks _
  have hhas : hasSubtask (preSave { t with subtasks := t.subtasks ++
      [({ id := freshId, title := title, is_completed := false } : Subtask)] })
      freshId = true := by
    unfold hasSubtask
    rw [hsubs]
    simp [List.any_append]
  have hkeep : t.subtasks.filter (fun s => !(s.id == freshId)) = t.subtasks := by
    refine List.filter_eq_self.mpr ?_
    intro s hs
    simp only [Bool.not_eq_true', beq_eq_false_iff_ne]
    intro he
    exact hfresh (he ▸ List.mem_map_of_mem Subtask.id hs)
  have hfilter : (preSave { t with subtasks := t.subtasks ++
      [({ id := freshId, title := title, is_completed := false } : Subtask)] }).subtasks.filter
        (fun s => !(s.id == freshId)) = t.subtasks := by
    rw [hsubs, List.filter_append, hkeep]
    simp
  have hvback : validTask { preSave { t with subtasks := t.subtasks ++
      [({ id := freshId, title := title, is_completed := false } : Subtask)] } with
        subtasks := t.subtasks } = true := by
    show (validTitle (preSave { t with subtasks := t.subtasks ++
        [({ id := freshId, title := title, is_completed := false } : Subtask)] }).title &&
      validDescription (preSave { t with subtasks := t.subtasks ++
        [({ id := freshId, title := title, is_completed := false } : Subtask)] }).description &&
      t.subtasks.all (fun s => validTitle s.title)) = true
    rw [preSave_title, preSave_description]
    exact hv
  refine ⟨preSave { preSave { t with subtasks := t.subtasks ++
      [({ id := freshId, title := title, is_completed := false } : Subtask)] } with
        subtasks := t.subtasks }, ?_, ?_⟩
  · unfold removeSubtaskPure
    rw [if_pos hhas]
    unfold save
    rw [hfilter, if_pos hvback]
  · rw [preSave_subtasks]

/-- Witness for C8: adding subtask "n" (fresh id 9) to the concrete task and
removing it again restores the original one-element subtask sequence. -/
theorem c8_add_remove_subtask_roundtrip_witness :
    addSubtaskPure oneSubtaskTask "n" false 9 = .ok oneSubtaskExtended ∧
    removeSubtaskPure oneSubtaskExtended 9 = .ok oneSubtaskTask ∧
    oneSubtaskTask.subtasks =
      [{ id := 5, title := "s", is_completed := false }] := by
  obtain ⟨t1, h1, t2, h2, h3⟩ :=
    c8_add_remove_subtask_roundtrip oneSubtaskTask "n" 9 (by decide)
      (by decide) (by decide)
  have e1 : t1 = oneSubtaskExtended := by
    have : (Except.ok t1 : Except Err Task) = .ok oneSubtaskExtended :=
      h1.symm.trans rfl
    injection this
  subst e1
  have e2 : t2 = oneSubtaskTask := by
    have : (Except.ok t2 : Except Err Task) = .ok oneSubtaskTask :=
      h2.symm.trans rfl
    injection this
  subst e2
  exact ⟨h1, h2, rfl⟩

/-- C6: for every task-scoped service operation, when no task with the given
id is owned by the given user — whether the id matches no task at all or the
task belongs to a different owner — the operation returns the one identical
NotFoundError value, so a caller cannot distinguish the two situations. -/
theorem c6_ownership_absence_indistinguishable (db : List Task)
    (taskId userId : Nat) (u : TaskUpdate) (su : SubtaskUpdate)
    (title : String) (ic : Bool) (freshId subtaskId : Nat)
    (habs : ∀ t ∈ db, ¬(t.id = taskId ∧ t.user_id = userId)) :
    getTaskSvc db taskId userId = .error .notFound ∧
    updateTaskSvc db taskId userId u = .error .notFound ∧
    deleteTaskSvc db taskId userId = .error .notFound ∧
    addSubtaskSvc db taskId userId title ic freshId = .error .notFound ∧
    updateSubtaskSvc db taskId userId subtaskId su = .error .notFound ∧
    deleteSubtaskSvc db taskId userId subtaskId = .error .notFound ∧
    toggleTaskCompletionSvc db taskId userId = .error .notFound ∧
    toggleSubtaskCompletionSvc db taskId userId subtaskId = .error .notFound := by
  have hf : findOwned db taskId userId = none := by
    refine List.find?_eq_none.mpr ?_
    intro x hx
    simpa [Bool.and_eq_true] using habs x hx
  refine ⟨?_, ?_, ?_, ?_, ?_, ?_, ?_, ?_⟩ <;>
    simp [getTaskSvc, updateTaskSvc, deleteTaskSvc, addSubtaskSvc,
      updateSubtaskSvc, deleteSubtaskSvc, toggleTaskCompletionSvc,
      toggleSubtaskCompletionSvc, hf]

/-- Witness for C6 at concrete inputs: a store whose only task (id 1) is
owned by user 2 answers user 1's lookup of task 1 with the same
NotFoundError as the empty store, where task 1 does not exist at all. -/
theorem c6_ownership_absence_witness :
    getTaskSvc otherOwnerDb 1 1 = .error .notFound ∧
    deleteTaskSvc otherOwnerDb 1 1 = .error .notFound ∧
    getTaskSvc ([] : List Task) 1 1 = .error .notFound ∧
    getTaskSvc otherOwnerDb 1 1 = getTaskSvc ([] : List Task) 1 1 := by
  obtain ⟨hg, _, hd, _⟩ :=
    c6_ownership_absence_indistinguishable otherOwnerDb 1 1 {} {} "x" false 2 3
      (by decide)
  obtain ⟨hg2, _⟩ :=
    c6_ownership_absence_indistinguishable ([] : List Task) 1 1 {} {} "x" false 2 3
      (by decide)
  exact ⟨hg, hd, hg2, hg.trans hg2.symm⟩

/-- C5: with exactly 15 tasks for the owner and query limit=10, page=2 and
no other filters, getTasks returns 5 tasks with hasNextPage = false and
hasPrevPage = true; and in general the pagination metadata is computed from
a count scoped to the owner only (ignoring the active filters), with
totalPages = ceil(count/limit), hasNextPage = page < totalPages and
hasPrevPage = page > 1. -/
theorem c5_pagination_metadata (db : List Task) (userId : Nat)
    (h15 : (db.filter (fun t => t.user_id == userId)).length = 15) :
    ((getTasksCtrl db userId { page := 2, limit := 10 }).1.length = 5 ∧
     (getTasksCtrl db userId { page := 2, limit := 10 }).2.hasNextPage = false ∧
     (getTasksCtrl db userId { page := 2, limit := 10 }).2.hasPrevPage = true) ∧
    (∀ (db2 : List Task) (uid2 : Nat) (f : QueryFilters),
      (getTasksCtrl db2 uid2 f).2.totalTasks =
        (db2.filter (fun t => t.user_id == uid2)).length ∧
      (getTasksCtrl db2 uid2 f).2.totalPages =
        ceilDiv (db2.filter (fun t => t.user_id == uid2)).length f.limit ∧
      (getTasksCtrl db2 uid2 f).2.hasNextPage =
        decide (f.page < (getTasksCtrl db2 uid2 f).2.totalPages) ∧
      (getTasksCtrl db2 uid2 f).2.hasPrevPage = decide (f.page > 1)) := by
  have hmatch : (db.filter (fun t => t.user_id == userId)).filter
      (matchesFilters { page := 2, limit := 10 }) =
      db.filter (fun t => t.user_id == userId) :=
    List.filter_eq_self.mpr (fun t _ => rfl)
  have hlen : (sortTasks ({ page := 2, limit := 10 } : QueryFilters)
      (db.filter (fun t => t.user_id == userId))).length = 15 := by
    simp only [sortTasks]
    rw [List.length_mergeSort]
    exact h15
  refine ⟨⟨?_, ?_, ?_⟩, fun db2 uid2 f => ⟨rfl, rfl, rfl, rfl⟩⟩
  · simp only [getTasksCtrl, findByUserWithFilters, hmatch]
    rw [if_pos (by decide)]
    rw [List.length_take, List.length_drop, hlen]
    decide
  · show decide ((2 : Nat) <
      ceilDiv (db.filter (fun t => t.user_id == userId)).length 10) = false
    rw [h15]
    decide
  · rfl

/-- Witness for C5: the concrete 15-task store of user 7 paged with
limit=10, page=2 yields 5 tasks, hasNextPage=false, hasPrevPage=true. -/
theorem c5_pagination_metadata_witness :
    (paginationDb.filter (fun t => t.user_id == 7)).length = 15 ∧
    (getTasksCtrl paginationDb 7 { page := 2, limit := 10 }).1.length = 5 ∧
    (getTasksCtrl paginationDb 7 { page := 2, limit := 10 }).2.hasNextPage = false ∧
    (getTasksCtrl paginationDb 7 { page := 2, limit := 10 }).2.hasPrevPage = true := by
  have h := (c5_pagination_metadata paginationDb 7 (by decide)).1
  exact ⟨by decide, h.1, h.2.1, h.2.2⟩

/-- Mapping a function that fixes every member of a list is the identity. -/
theorem map_id_of_mem {α : Type} (l : List α) (f : α → α)
    (h : ∀ x ∈ l, f x = x) : l.map f = l := by
  induction l with
  | nil => rfl
  | cons a t ih =>
    rw [List.map_cons, h a (by simp), ih (fun x hx => h x (by simp [hx]))]

/-- Validation is insensitive to is_completed, so the pre-save middleware
preserves it. -/
theorem validTask_preSave (t : Task) : validTask (preSave t) = validTask t := by
  rcases preSave_cases t with h | h <;> rw [h]
  rfl

/-- Flipping a subtask's flag does not change the id sequence. -/
theorem flipFirst_map_id (l : List Subtask) (a : Nat) :
    (flipFirst l a).map Subtask.id = l.map Subtask.id := by
  induction l with
  | nil => rfl
  | cons s rest ih =>
    simp only [flipFirst]
    split
    · rfl
    · simp only [List.map_cons, ih]

/-- Flipping a subtask's flag does not change any title, hence preserves
the title validators. -/
theorem flipFirst_all_title (l : List Subtask) (a : Nat) :
    (flipFirst l a).all (fun s => validTitle s.title) =
      l.all (fun s => validTitle s.title) := by
  induction l with
  | nil => rfl
  | cons s rest ih =>
    simp only [flipFirst]
    split
    · rfl
    · simp only [List.all_cons, ih]

/-- A toggle step preserves document validity. -/
theorem validTask_toggleGo (t : Task) (a : Nat) :
    validTask (toggleSubtaskGo t a) = validTask t := by
  unfold toggleSubtaskGo
  rw [validTask_preSave]
  show (validTitle t.title && validDescription t.description &&
    (flipFirst t.subtasks a).all (fun s => validTitle s.title)) = validTask t
  rw [flipFirst_all_title]
  rfl

/-- A toggle step preserves the subtask id sequence. -/
theorem toggleGo_ids (t : Task) (a : Nat) :
    (toggleSubtaskGo t a).subtasks.map Subtask.id =
      t.subtasks.map Subtask.id := by
  unfold toggleSubtaskGo
  rw [preSave_subtasks]
  exact flipFirst_map_id t.subtasks a

/-- hasSubtask is membership of the id in the subtask id sequence. -/
theorem hasSubtask_iff (t : Task) (a : Nat) :
    hasSubtask t a = true ↔ a ∈ t.subtasks.map Subtask.id := by
  simp [hasSubtask, List.any_eq_true, List.mem_map]

/-- On a valid task containing the subtask, toggleSubtaskCompletion succeeds
and returns exactly the flipped-and-saved document. -/
theorem toggleSubtask_ok (t : Task) (a : Nat) (hv : validTask t = true)
    (ha : a ∈ t.subtasks.map Subtask.id) :
    toggleSubtaskCompletionPure t a = .ok (toggleSubtaskGo t a) := by
  have hvf : validTask { t with subtasks := flipFirst t.subtasks a } = true := by
    have he : validTask { t with subtasks := flipFirst t.subtasks a } =
        validTask t := by
      show (validTitle t.title && validDescription t.description &&
        (flipFirst t.subtasks a).all (fun s => validTitle s.title)) = validTask t
      rw [flipFirst_all_title]
      rfl
    rw [he]
    exact hv
  unfold toggleSubtaskCompletionPure
  rw [if_pos ((hasSubtask_iff t a).mpr ha)]
  unfold save
  rw [if_pos hvf]
  rfl

/-- Folded toggle steps preserve the subtask id sequence. -/
theorem foldl_toggle_ids (P : List Nat) (t : Task) :
    (P.foldl toggleSubtaskGo t).subtasks.map Subtask.id =
      t.subtasks.map Subtask.id := by
  induction P generalizing t with
  | nil => rfl
  | cons a P ih => rw [List.foldl_cons, ih, toggleGo_ids]

/-- Folded toggle steps preserve document validity. -/
theorem foldl_toggle_valid (P : List Nat) (t : Task) :
    validTask (P.foldl toggleSubtaskGo t) = validTask t := by
  induction P generalizing t with
  | nil => rfl
  | cons a P ih => rw [List.foldl_cons, ih, validTask_toggleGo]

/-- With unique subtask ids, flipping the first match is a pointwise map. -/
theorem flipFirst_eq_map (l : List Subtask) (a : Nat)
    (h : (l.map Subtask.id).Nodup) :
    flipFirst l a = l.map (fun s =>
      if s.id = a then { s with is_completed := !s.is_completed } else s) := by
  induction l with
  | nil => rfl
  | cons s rest ih =>
    rw [List.map_cons, List.nodup_cons] at h
    simp only [flipFirst, List.map_cons]
    split
    case isTrue hb =>
      have hsa : s.id = a := by simpa using hb
      rw [if_pos hsa]
      congr 1
      refine (map_id_of_mem rest _ ?_).symm
      intro x hx
      rw [if_neg]
      intro hxa
      have hmem : x.id ∈ rest.map Subtask.id := List.mem_map_of_mem Subtask.id hx
      rw [hxa, ← hsa] at hmem
      exact h.1 hmem
    case isFalse hb =>
      have hsa : ¬s.id = a := by simpa using hb
      rw [if_neg hsa]
      congr 1
      exact ih h.2

/-- The pre-save hook leaves a task without subtasks untouched. -/
theorem preSave_empty (v : Task) (h : v.subtasks = []) : preSave v = v := by
  unfold preSave
  rw [h]
  simp

/-- A task containing an incomplete subtask passes the pre-save hook with
its is_completed flag untouched. -/
theorem preSave_not_all (v : Task) (s0 : Subtask) (h0 : s0 ∈ v.subtasks)
    (hc : s0.is_completed = false) :
    (preSave v).is_completed = v.is_completed := by
  unfold preSave
  split
  · rw [if_neg]
    intro heq
    have hlt : (v.subtasks.filter (fun s => s.is_completed)).length <
        v.subtasks.length :=
      List.length_filter_lt_length_iff_exists.mpr ⟨s0, h0, by simp [hc]⟩
    omega
  · rfl

/-- State reached by toggling a duplicate-free set P of subtask ids of a
task that starts fully incomplete: every service call succeeds, each
subtask is completed exactly when its id lies in P, and the parent is
completed exactly when P covers the whole (non-empty) subtask list. -/
theorem toggleSeq_state (t : Task) (P : List Nat)
    (hv : validTask t = true)
    (hnodup : (t.subtasks.map Subtask.id).Nodup)
    (hinc : ∀ s ∈ t.subtasks, s.is_completed = false)
    (hic : t.is_completed = false) :
    P.Nodup → (∀ p ∈ P, p ∈ t.subtasks.map Subtask.id) →
    toggleSubtaskSeq t P = .ok (P.foldl toggleSubtaskGo t) ∧
    (P.foldl toggleSubtaskGo t).subtasks =
      t.subtasks.map (fun s => { s with is_completed := decide (s.id ∈ P) }) ∧
    (P.foldl toggleSubtaskGo t).is_completed =
      decide (t.subtasks ≠ [] ∧ ∀ s ∈ t.subtasks, s.id ∈ P) := by
  induction P using List.reverseRecOn with
  | nil =>
    intro _ _
    refine ⟨rfl, ?_, ?_⟩
    · symm
      apply map_id_of_mem
      intro s hs
      have hcf := hinc s hs
      cases s with
      | mk i ti c =>
        simp only at hcf
        simp [hcf]
    · show t.is_completed =
        decide (t.subtasks ≠ [] ∧ ∀ s ∈ t.subtasks, s.id ∈ ([] : List Nat))
      rw [hic]
      symm
      rw [decide_eq_false_iff_not]
      rintro ⟨hne, hall⟩
      have := hall _ (List.head_mem hne)
      simp at this
  | append_singleton P a ih =>
    intro hPn hPm
    rw [List.nodup_append] at hPn
    obtain ⟨hPn2, _, hdisj⟩ := hPn
    have haP : a ∉ P := fun hmem => by
      have := hdisj hmem
      simp at this
    have hPm2 : ∀ p ∈ P, p ∈ t.subtasks.map Subtask.id :=
      fun p hp => hPm p (by simp [hp])
    have ham : a ∈ t.subtasks.map Subtask.id := hPm a (by simp)
    obtain ⟨hseq, hsubs, hcomp⟩ := ih hPn2 hPm2
    have hfold : (P ++ [a]).foldl toggleSubtaskGo t =
        toggleSubtaskGo (P.foldl toggleSubtaskGo t) a := by
      rw [List.foldl_append]
      rfl
    have hflip : flipFirst (P.foldl toggleSubtaskGo t).subtasks a =
        t.subtasks.map (fun s =>
          { s with is_completed := decide (s.id ∈ P ++ [a]) }) := by
      rw [hsubs, flipFirst_eq_map]
      · rw [List.map_map]
        apply List.map_congr_left
        intro s _
        simp only [Function.comp]
        by_cases hsa : s.id = a
        · rw [if_pos hsa]
          cases s with
          | mk i ti c =>
            simp only at hsa
            subst hsa
            simp [haP, List.mem_append]
        · rw [if_neg hsa]
          cases s with
          | mk i ti c =>
            simp only at hsa
            simp [List.mem_append, hsa]
      · rw [List.map_map]
        have hci : (Subtask.id ∘ (fun s =>
            ({ s with is_completed := decide (s.id ∈ P) } : Subtask))) =
            Subtask.id := rfl
        rw [hci]
        exact hnodup
    have hsubs2 : ((P ++ [a]).foldl toggleSubtaskGo t).subtasks =
        t.subtasks.map (fun s =>
          { s with is_completed := decide (s.id ∈ P ++ [a]) }) := by
      rw [hfold]
      unfold toggleSubtaskGo
      rw [preSave_subtasks]
      exact hflip
    refine ⟨?_, hsubs2, ?_⟩
    · have hseq2 : P.foldlM toggleSubtaskCompletionPure t =
          .ok (P.foldl toggleSubtaskGo t) := hseq
      have hstep : toggleSubtaskCompletionPure (P.foldl toggleSubtaskGo t) a =
          .ok (toggleSubtaskGo (P.foldl toggleSubtaskGo t) a) :=
        toggleSubtask_ok _ a (by rw [foldl_toggle_valid]; exact hv)
          (by rw [foldl_toggle_ids]; exact ham)
      show (P ++ [a]).foldlM toggleSubtaskCompletionPure t =
        .ok ((P ++ [a]).foldl toggleSubtaskGo t)
      rw [List.foldlM_append, hseq2, hfold]
      show [a].foldlM toggleSubtaskCompletionPure (P.foldl toggleSubtaskGo t) =
        .ok (toggleSubtaskGo (P.foldl toggleSubtaskGo t) a)
      rw [List.foldlM_cons, hstep]
      rfl
    · by_cases hall : t.subtasks ≠ [] ∧ ∀ s ∈ t.subtasks, s.id ∈ P ++ [a]
      · rw [decide_eq_true hall, hfold]
        unfold toggleSubtaskGo
        apply preSave_complete
        · show flipFirst (P.foldl toggleSubtaskGo t).subtasks a ≠ []
          rw [hflip]
          simp only [ne_eq, List.map_eq_nil_iff]
          exact hall.1
        · show ∀ s ∈ flipFirst (P.foldl toggleSubtaskGo t).subtasks a,
            s.is_completed = true
          intro s hs
          rw [hflip] at hs
          obtain ⟨s2, hs2, rfl⟩ := List.mem_map.mp hs
          exact decide_eq_true (hall.2 s2 hs2)
      · rw [decide_eq_false hall, hfold]
        by_cases hts : t.subtasks = []
        · have hu : (P.foldl toggleSubtaskGo t).subtasks = [] := by
            rw [hsubs, hts]
            rfl
          have hv2 : toggleSubtaskGo (P.foldl toggleSubtaskGo t) a =
              { P.foldl toggleSubtaskGo t with
                subtasks := flipFirst (P.foldl toggleSubtaskGo t).subtasks a } := by
            unfold toggleSubtaskGo
            apply preSave_empty
            show flipFirst (P.foldl toggleSubtaskGo t).subtasks a = []
            rw [hu]
            rfl
          rw [hv2]
          show (P.foldl toggleSubtaskGo t).is_completed = false
          rw [hcomp]
          simp [hts]
        · have hnall : ¬∀ s ∈ t.subtasks, s.id ∈ P ++ [a] :=
            fun hf => hall ⟨hts, hf⟩
          push_neg at hnall
          obtain ⟨s0, hs0m, hs0n⟩ := hnall
          unfold toggleSubtaskGo
          have hmem0 : ({ s0 with is_completed := decide (s0.id ∈ P ++ [a]) }
              : Subtask) ∈ flipFirst (P.foldl toggleSubtaskGo t).subtasks a := by
            rw [hflip]
            exact List.mem_map_of_mem _ hs0m
          rw [preSave_not_all _ _ hmem0 (decide_eq_false hs0n)]
          show (P.foldl toggleSubtaskGo t).is_completed = false
          rw [hcomp]
          rw [decide_eq_false_iff_not]
          rintro ⟨_, hsubP⟩
          exact hs0n (List.mem_append.mpr (Or.inl (hsubP s0 hs0m)))

/-- C7: starting from a task whose n ≥ 1 subtasks are all incomplete and
whose own flag is false, toggling the subtasks to completed one at a time
(any duplicate-free order covering them) leaves the task incomplete after
each of the first n-1 toggles and completes it on the nth; and toggling a
subtask of a fully-completed task back to incomplete does not un-complete
the task (the asymmetric rule). -/
theorem c7_toggle_until_last (t : Task) (order : List Nat)
    (hv : validTask t = true)
    (hnodup : (t.subtasks.map Subtask.id).Nodup)
    (hperm : List.Perm order (t.subtasks.map Subtask.id))
    (hinc : ∀ s ∈ t.subtasks, s.is_completed = false)
    (hic : t.is_completed = false)
    (hne : t.subtasks ≠ []) :
    (∀ k, k < order.length →
      ∃ u, toggleSubtaskSeq t (order.take k) = .ok u ∧
        u.is_completed = false) ∧
    (∃ u, toggleSubtaskSeq t order = .ok u ∧ u.is_completed = true) ∧
    (∀ (w : Task) (a : Nat), validTask w = true →
      (∀ s ∈ w.subtasks, s.is_completed = true) → w.is_completed = true →
      a ∈ w.subtasks.map Subtask.id →
      ∃ u, toggleSubtaskCompletionPure w a = .ok u ∧
        u.is_completed = true) := by
  have horder : order.Nodup := hperm.nodup_iff.mpr hnodup
  refine ⟨?_, ?_, ?_⟩
  · intro k hk
    have htaken : (order.take k).Nodup := (List.take_sublist k order).nodup horder
    have htakem : ∀ p ∈ order.take k, p ∈ t.subtasks.map Subtask.id :=
      fun p hp => hperm.mem_iff.mp ((List.take_sublist k order).subset hp)
    obtain ⟨hseq, _, hcomp⟩ :=
      toggleSeq_state t (order.take k) hv hnodup hinc hic htaken htakem
    refine ⟨_, hseq, ?_⟩
    rw [hcomp, decide_eq_false_iff_not]
    rintro ⟨_, hall⟩
    have hgm : order.get ⟨k, hk⟩ ∈ t.subtasks.map Subtask.id :=
      hperm.mem_iff.mp (List.get_mem ..)
    obtain ⟨s1, hs1m, hs1id⟩ := List.mem_map.mp hgm
    have hin := hall s1 hs1m
    rw [hs1id] at hin
    have hdisj : List.Disjoint (order.take k) (order.drop k) := by
      have hnd := (List.take_append_drop k order) ▸ horder
      exact (List.nodup_append.mp hnd).2.2
    have hdropmem : order.get ⟨k, hk⟩ ∈ order.drop k := by
      have hg : order.get ⟨k, hk⟩ = (order.drop k).get ⟨0, by simp; omega⟩ := by
        simp [List.getElem_drop']
      rw [hg]
      exact List.get_mem ..
    exact hdisj hin hdropmem
  · have hsub : ∀ p ∈ order, p ∈ t.subtasks.map Subtask.id :=
      fun p hp => hperm.mem_iff.mp hp
    obtain ⟨hseq, _, hcomp⟩ :=
      toggleSeq_state t order hv hnodup hinc hic horder hsub
    refine ⟨_, hseq, ?_⟩
    rw [hcomp, decide_eq_true_eq]
    exact ⟨hne, fun s hs =>
      hperm.mem_iff.mpr (List.mem_map_of_mem Subtask.id hs)⟩
  · intro w a hvw hallw hicw haw
    refine ⟨toggleSubtaskGo w a, toggleSubtask_ok w a hvw haw, ?_⟩
    unfold toggleSubtaskGo
    apply preSave_keeps_completed
    exact hicw

/-- Witness for C7 on the concrete two-subtask task: after toggling subtask
5 only, the task is still incomplete; after also toggling subtask 6, the
task is completed. -/
theorem c7_toggle_until_last_witness :
    toggleSubtaskSeq twoSubtaskTask ([5, 6].take 1) = .ok twoSubtaskMid ∧
    twoSubtaskMid.is_completed = false ∧
    toggleSubtaskSeq twoSubtaskTask [5, 6] = .ok twoSubtaskDone ∧
    twoSubtaskDone.is_completed = true := by
  obtain ⟨h1, h2, _⟩ := c7_toggle_until_last twoSubtaskTask [5, 6] (by decide)
    (by decide) (by decide) (by decide) rfl (by decide)
  obtain ⟨u1, hu1, hc1⟩ := h1 1 (by decide)
  have e1 : u1 = twoSubtaskMid := by
    have h := hu1.symm.trans
      (show toggleSubtaskSeq twoSubtaskTask ([5, 6].take 1) =
        .ok twoSubtaskMid from rfl)
    injection h
  subst e1
  obtain ⟨u2, hu2, hc2⟩ := h2
  have e2 : u2 = twoSubtaskDone := by
    have h := hu2.symm.trans
      (show toggleSubtaskSeq twoSubtaskTask [5, 6] =
        .ok twoSubtaskDone from rfl)
    injection h
  subst e2
  exact ⟨hu1, hc1, hu2, hc2⟩

/-- Replacing a document in the store does not change the id sequence. -/
theorem writeBack_map_id (db : List Task) (x : Task) :
    (writeBack db x).map Task.id = db.map Task.id := by
  unfold writeBack
  rw [List.map_map]
  apply List.map_congr_left
  intro u _
  simp only [Function.comp]
  split
  case isTrue hb => exact ((beq_iff_eq ..).mp hb).symm
  case isFalse hb => rfl

/-- A sweep iteration takes exactly one of three shapes: a no-op (aborted
run, unresolvable email, or failed dispatch), a successful mark-and-save,
or a dispatched email whose flag-write rejected and aborted the run. -/
theorem sweepStep_cases (env : SweepEnv) (st : SweepState) (t : Task) :
    sweepStep env st t = st ∨
    (env.mailOk t.id = true ∧ env.saveOk t.id = true ∧
      sweepStep env st t = { st with
        db := writeBack st.db (preSave { t with notification_sent := true }),
        emailed := st.emailed ++ [t.id] }) ∨
    (env.mailOk t.id = true ∧ env.saveOk t.id = false ∧
      sweepStep env st t =
        { st with emailed := st.emailed ++ [t.id], aborted := true }) := by
  unfold sweepStep
  split
  · left; rfl
  · split
    · split
      case isTrue hm =>
        split
        case isTrue hs => right; left; exact ⟨hm, hs, rfl⟩
        case isFalse hs =>
          right; right
          exact ⟨hm, by simpa using hs, rfl⟩
      case isFalse hm => left; rfl
    · left; rfl

/-- Dispatched ids only accumulate across a sweep iteration. -/
theorem sweepStep_emailed_mono (env : SweepEnv) (st : SweepState) (t : Task)
    (i : Nat) (h : i ∈ st.emailed) : i ∈ (sweepStep env st t).emailed := by
  rcases sweepStep_cases env st t with heq | ⟨_, _, heq⟩ | ⟨_, _, heq⟩ <;>
    rw [heq]
  · exact h
  · exact List.mem_append_left _ h
  · exact List.mem_append_left _ h

/-- Dispatched ids only accumulate across a whole sweep loop. -/
theorem sweepFold_emailed_mono (env : SweepEnv) (sel : List Task)
    (st : SweepState) (i : Nat) (h : i ∈ st.emailed) :
    i ∈ (sel.foldl (sweepStep env) st).emailed := by
  induction sel generalizing st with
  | nil => exact h
  | cons s sel2 ih =>
    rw [List.foldl_cons]
    exact ih _ (sweepStep_emailed_mono env st s i h)

/-- Every id dispatched by the loop was either already dispatched or is the
id of a selected task whose dispatch reported success. -/
theorem sweepFold_emailed_origin (env : SweepEnv) (sel : List Task)
    (st : SweepState) :
    ∀ i ∈ (sel.foldl (sweepStep env) st).emailed,
      i ∈ st.emailed ∨ (env.mailOk i = true ∧ i ∈ sel.map Task.id) := by
  induction sel generalizing st with
  | nil =>
    intro i hi
    exact Or.inl hi
  | cons s sel2 ih =>
    intro i hi
    rw [List.foldl_cons] at hi
    rcases ih (sweepStep env st s) i hi with hold | ⟨hm, hmem⟩
    · rcases sweepStep_cases env st s with heq | ⟨hm, _, heq⟩ | ⟨hm, _, heq⟩ <;>
        rw [heq] at hold
      · exact Or.inl hold
      · rcases List.mem_append.mp hold with h1 | h1
        · exact Or.inl h1
        · refine Or.inr ⟨?_, by simp [List.mem_singleton.mp h1]⟩
          rw [List.mem_singleton.mp h1]
          exact hm
      · rcases List.mem_append.mp hold with h1 | h1
        · exact Or.inl h1
        · refine Or.inr ⟨?_, by simp [List.mem_singleton.mp h1]⟩
          rw [List.mem_singleton.mp h1]
          exact hm
    · exact Or.inr ⟨hm, by simp [hmem]⟩

/-- When every save resolves, once an id has been dispatched the store keeps
notification_sent = true for every document carrying that id. -/
theorem sweepFold_marked (env : SweepEnv) (hsave : ∀ i, env.saveOk i = true)
    (sel : List Task) (st : SweepState)
    (h : ∀ i ∈ st.emailed, ∀ u ∈ st.db, u.id = i →
      u.notification_sent = true) :
    ∀ i ∈ (sel.foldl (sweepStep env) st).emailed,
      ∀ u ∈ (sel.foldl (sweepStep env) st).db, u.id = i →
        u.notification_sent = true := by
  induction sel generalizing st with
  | nil => exact h
  | cons s sel2 ih =>
    rw [List.foldl_cons]
    apply ih
    rcases sweepStep_cases env st s with heq | ⟨hm, hs, heq⟩ | ⟨_, hs, heq⟩
    · rw [heq]; exact h
    · rw [heq]
      intro i hi u hu hid
      obtain ⟨e, he, hue⟩ := List.mem_map.mp hu
      by_cases hbe : (e.id ==
          (preSave { s with notification_sent := true }).id) = true
      · rw [if_pos hbe] at hue
        rw [← hue, preSave_notification]
      · rw [if_neg (by simpa using hbe)] at hue
        rcases List.mem_append.mp hi with h1 | h1
        · exact h i h1 u (hue ▸ he) hid
        · exfalso
          apply hbe
          rw [preSave_id]
          show (e.id == s.id) = true
          rw [← hue] at hid
          rw [hid, List.mem_singleton.mp h1]
          exact beq_self_eq_true s.id
    · exfalso
      have := hsave s.id
      rw [this] at hs
      cases hs

/-- A document whose flag is set after the loop either already had it set or
belongs to a task whose id was dispatched with a successful mail result. -/
theorem sweepFold_flag_origin (env : SweepEnv) (sel : List Task)
    (st : SweepState) (orig : List Task)
    (h : ∀ u ∈ st.db, u.notification_sent = true →
      (∃ t0 ∈ orig, t0.id = u.id ∧ t0.notification_sent = true) ∨
      (u.id ∈ st.emailed ∧ env.mailOk u.id = true)) :
    ∀ u ∈ (sel.foldl (sweepStep env) st).db, u.notification_sent = true →
      (∃ t0 ∈ orig, t0.id = u.id ∧ t0.notification_sent = true) ∨
      (u.id ∈ (sel.foldl (sweepStep env) st).emailed ∧
        env.mailOk u.id = true) := by
  induction sel generalizing st with
  | nil => exact h
  | cons s sel2 ih =>
    rw [List.foldl_cons]
    apply ih
    rcases sweepStep_cases env st s with heq | ⟨hm, hs, heq⟩ | ⟨_, hs, heq⟩
    · rw [heq]; exact h
    · rw [heq]
      intro u hu hflag
      obtain ⟨e, he, hue⟩ := List.mem_map.mp hu
      by_cases hbe : (e.id ==
          (preSave { s with notification_sent := true }).id) = true
      · rw [if_pos hbe] at hue
        right
        constructor
        · apply List.mem_append_right
          rw [← hue, preSave_id]
          exact List.mem_singleton.mpr rfl
        · rw [← hue, preSave_id]
          exact hm
      · rw [if_neg (by simpa using hbe)] at hue
        rcases h u (hue ▸ he) hflag with hl | ⟨h1, h2⟩
        · exact Or.inl hl
        · exact Or.inr ⟨List.mem_append_left _ h1, h2⟩
    · rw [heq]
      intro u hu hflag
      rcases h u hu hflag with hl | ⟨h1, h2⟩
      · exact Or.inl hl
      · exact Or.inr ⟨List.mem_append_left _ h1, h2⟩

/-- C3: under normal operation (every flag-write resolves), the sweep sets
and persists notification_sent = true only for tasks whose dispatch
reported success (flag-after implies send-success or already-set flag); and
after a run, neither findOverdueTasks nor the due-soon selection of an
immediate re-run — at any query time — selects a task that was just
notified, so a re-run emails none of them: at most one email per due task. -/
theorem c3_sweep_marks_only_after_success (db : List Task) (env : SweepEnv)
    (now now2 now3 : Nat) (hsave : ∀ i, env.saveOk i = true) :
    (∀ u ∈ (sweep db env now).db, u.notification_sent = true →
      (∃ t0 ∈ db, t0.id = u.id ∧ t0.notification_sent = true) ∨
      (u.id ∈ (sweep db env now).emailed ∧ env.mailOk u.id = true)) ∧
    (∀ i ∈ (sweep db env now).emailed,
      ∀ u ∈ findOverdueTasks (sweep db env now).db now2, u.id ≠ i) ∧
    (∀ i ∈ (sweep db env now).emailed,
      ∀ u ∈ (sweep db env now).db.filter (dueSoon now3), u.id ≠ i) ∧
    (∀ (env2 : SweepEnv) (now4 : Nat), ∀ i ∈ (sweep db env now).emailed,
      i ∉ (sweep (sweep db env now).db env2 now4).emailed) := by
  have hmarked : ∀ i ∈ (sweep db env now).emailed,
      ∀ u ∈ (sweep db env now).db, u.id = i → u.notification_sent = true := by
    apply sweepFold_marked env hsave
    intro i hi
    exact absurd hi (List.not_mem_nil i)
  refine ⟨?_, ?_, ?_, ?_⟩
  · apply sweepFold_flag_origin
    intro u hu hflag
    exact Or.inl ⟨u, hu, rfl, hflag⟩
  · intro i hi u hu hid
    obtain ⟨hmem, hpred⟩ := List.mem_filter.mp hu
    have hflag := hmarked i hi u hmem hid
    simp only [Bool.and_eq_true, Bool.not_eq_true'] at hpred
    rw [hpred.2] at hflag
    cases hflag
  · intro i hi u hu hid
    obtain ⟨hmem, hpred⟩ := List.mem_filter.mp hu
    have hflag := hmarked i hi u hmem hid
    unfold dueSoon at hpred
    simp only [Bool.and_eq_true, Bool.not_eq_true'] at hpred
    rw [hpred.2] at hflag
    cases hflag
  · intro env2 now4 i hi hre
    rcases sweepFold_emailed_origin env2 _ _ i hre with h0 | ⟨_, hm⟩
    · exact absurd h0 (List.not_mem_nil i)
    · obtain ⟨u, hu2, hid⟩ := List.mem_map.mp hm
      obtain ⟨hmem, hpred⟩ := List.mem_filter.mp hu2
      have hflag := hmarked i hi u hmem hid
      unfold dueSoon at hpred
      simp only [Bool.and_eq_true, Bool.not_eq_true'] at hpred
      rw [hpred.2] at hflag
      cases hflag

/-- Witness for C3: sweeping the one-due-task store with an all-success
environment emails task 1, and an immediate re-run emails nothing that was
just notified. -/
theorem c3_sweep_marks_only_after_success_witness :
    (sweep [dueTask1] okEnv 0).emailed = [1] ∧
    1 ∉ (sweep (sweep [dueTask1] okEnv 0).db okEnv 0).emailed :=
  ⟨by decide,
    (c3_sweep_marks_only_after_success [dueTask1] okEnv 0 0 0
      (fun _ => rfl)).2.2.2 okEnv 0 1 (by decide)⟩

/-- Counterexample to C4: with two eligible tasks and a working mailer, a
rejected flag-write (save) for task 1 throws out of the loop: only task 1's
email is dispatched and task 2 — eligible, with a resolvable email and a
working dispatch — is never processed, contradicting the claim that a
thrown error in one task's dispatch-plus-flag-write pipeline never prevents
the remaining tasks of the run from being processed. -/
theorem c4_abort_counterexample :
    dueSoon 0 dueTask2 = true ∧
    (failSaveEnv.emailOf dueTask2.user_id).isSome = true ∧
    failSaveEnv.mailOk dueTask2.id = true ∧
    (sweep [dueTask1, dueTask2] failSaveEnv 0).emailed = [1] ∧
    2 ∉ (sweep [dueTask1, dueTask2] failSaveEnv 0).emailed := by
  refine ⟨by decide, rfl, rfl, by decide, by decide⟩

/-- On a not-yet-aborted state, a successful dispatch with a resolving save
performs the mark-and-save and records the dispatched id. -/
theorem sweepStep_success (env : SweepEnv) (st : SweepState) (t : Task)
    (hab : st.aborted = false) (he : (env.emailOf t.user_id).isSome = true)
    (hm : env.mailOk t.id = true) (hs : env.saveOk t.id = true) :
    sweepStep env st t = { st with
      db := writeBack st.db (preSave { t with notification_sent := true }),
      emailed := st.emailed ++ [t.id] } := by
  unfold sweepStep
  rw [if_neg (by simp [hab]), if_pos he, if_pos hm, if_pos hs]

/-- When every save resolves, a sweep iteration never aborts the run. -/
theorem sweepStep_noabort (env : SweepEnv) (hsave : ∀ i, env.saveOk i = true)
    (st : SweepState) (t : Task) (hab : st.aborted = false) :
    (sweepStep env st t).aborted = false := by
  rcases sweepStep_cases env st t with heq | ⟨_, _, heq⟩ | ⟨_, hs, heq⟩ <;>
    rw [heq]
  · exact hab
  · exact hab
  · exfalso
    have := hsave t.id
    rw [this] at hs
    cases hs

/-- When every save resolves, every selected task with a resolvable email
and a successful dispatch gets its id recorded as emailed. -/
theorem sweepFold_emails (env : SweepEnv) (hsave : ∀ i, env.saveOk i = true)
    (sel : List Task) (st : SweepState) (hab : st.aborted = false) :
    ∀ t ∈ sel, (env.emailOf t.user_id).isSome = true →
      env.mailOk t.id = true →
      t.id ∈ (sel.foldl (sweepStep env) st).emailed := by
  induction sel generalizing st with
  | nil =>
    intro t ht
    exact absurd ht (List.not_mem_nil t)
  | cons s sel2 ih =>
    intro t ht he hm
    rw [List.foldl_cons]
    rcases List.mem_cons.mp ht with rfl | hmem
    · apply sweepFold_emailed_mono
      rw [sweepStep_success env st t hab he hm (hsave t.id)]
      exact List.mem_append_right _ (List.mem_singleton.mpr rfl)
    · exact ih (sweepStep env st s) (sweepStep_noabort env hsave st s hab)
        t hmem he hm

/-- Documents whose id is never marked by the loop (because every selected
task carrying that id failed its dispatch) survive the loop unchanged. -/
theorem sweepFold_db_id_stable (env : SweepEnv) (sel : List Task)
    (st : SweepState) (i : Nat)
    (hno : ∀ s2 ∈ sel, s2.id = i → env.mailOk s2.id = false) :
    ∀ u ∈ (sel.foldl (sweepStep env) st).db, u.id = i → u ∈ st.db := by
  induction sel generalizing st with
  | nil =>
    intro u hu _
    exact hu
  | cons s sel2 ih =>
    intro u hu hid
    rw [List.foldl_cons] at hu
    have hu2 := ih (sweepStep env st s)
      (fun s2 hs2 => hno s2 (List.mem_cons_of_mem s hs2)) u hu hid
    rcases sweepStep_cases env st s with heq | ⟨hm, _, heq⟩ | ⟨_, _, heq⟩ <;>
      rw [heq] at hu2
    · exact hu2
    · obtain ⟨e, he, hue⟩ := List.mem_map.mp hu2
      by_cases hbe : (e.id ==
          (preSave { s with notification_sent := true }).id) = true
      · exfalso
        rw [if_pos hbe] at hue
        have hsid : s.id = i := by
          rw [← hid, ← hue, preSave_id]
        have := hno s (List.mem_cons_self s sel2) hsid
        rw [this] at hm
        cases hm
      · rw [if_neg (by simpa using hbe)] at hue
        exact hue ▸ he
    · exact hu2

/-- Tasks of a store with duplicate-free ids are determined by their id. -/
theorem mem_id_inj (db : List Task) (hids : (db.map Task.id).Nodup)
    (u t : Task) (hu : u ∈ db) (ht : t ∈ db) (h : u.id = t.id) : u = t :=
  List.inj_on_of_nodup_map hids hu ht h

/-- C4 amended: dispatch failures are returned as values (never thrown), so
when every flag-write resolves, a task whose dispatch fails keeps
notification_sent = false and is not emailed, while every other eligible
task with a resolvable email and successful dispatch is still emailed in the
same run; however a rejected flag-write does abort the remainder of the run
(see the counterexample), so the no-throw hypothesis is necessary. -/
theorem c4_dispatch_failure_isolated (db : List Task) (env : SweepEnv)
    (now : Nat) (hids : (db.map Task.id).Nodup)
    (hsave : ∀ i, env.saveOk i = true) :
    (∀ t ∈ db, dueSoon now t = true → (env.emailOf t.user_id).isSome = true →
      env.mailOk t.id = false →
      t.id ∉ (sweep db env now).emailed ∧
      (∀ u ∈ (sweep db env now).db, u.id = t.id →
        u.notification_sent = false)) ∧
    (∀ t ∈ db, dueSoon now t = true → (env.emailOf t.user_id).isSome = true →
      env.mailOk t.id = true → t.id ∈ (sweep db env now).emailed) := by
  constructor
  · intro t ht hdue _ hm
    constructor
    · intro hmem
      rcases sweepFold_emailed_origin env _ _ t.id hmem with h0 | ⟨hmk, _⟩
      · exact absurd h0 (List.not_mem_nil t.id)
      · rw [hm] at hmk
        cases hmk
    · intro u hu hid
      have hstable : u ∈ db := by
        refine sweepFold_db_id_stable env _ _ t.id ?_ u hu hid
        intro s2 hs2 hsid
        have hs2db : s2 ∈ db := List.mem_of_mem_filter hs2
        have : s2 = t := mem_id_inj db hids s2 t hs2db ht hsid
        rw [this]
        exact hm
      have hut : u = t := mem_id_inj db hids u t hstable ht hid
      rw [hut]
      unfold dueSoon at hdue
      simp only [Bool.and_eq_true, Bool.not_eq_true'] at hdue
      exact hdue.2
  · intro t ht hdue he hm
    apply sweepFold_emails env hsave _ _ rfl
    · exact List.mem_filter.mpr ⟨ht, hdue⟩
    · exact he
    · exact hm

/-- Witness for the amended C4: with the dispatch for task 1 failing and all
saves resolving, the run still emails task 2, and task 1 keeps its flag
unset and is not emailed. -/
theorem c4_dispatch_failure_isolated_witness :
    (sweep [dueTask1, dueTask2] mailFailEnv 0).emailed = [2] ∧
    1 ∉ (sweep [dueTask1, dueTask2] mailFailEnv 0).emailed ∧
    2 ∈ (sweep [dueTask1, dueTask2] mailFailEnv 0).emailed := by
  have h := c4_dispatch_failure_isolated [dueTask1, dueTask2] mailFailEnv 0
    (by decide) (fun _ => rfl)
  refine ⟨by decide, ?_, ?_⟩
  · exact (h.1 dueTask1 (by decide) (by decide) rfl (by decide)).1
  · exact h.2 dueTask2 (by decide) (by decide) rfl (by decide)

end Todo
